import Mathlib

/-!
Verification of the geometry/view engine of the Euler–Argand viewer
(src/euler_argand_desmos_style_scale.jsx).

The engine is shallowly embedded: the numeric computations are modelled
over ℚ (exact rational arithmetic in place of IEEE doubles, so float
rounding, overflow and the NaN/Infinity values are carried explicitly
where the code branches on them), and the trigonometric arc geometry is
modelled over ℝ.  Each definition mirrors one place in the source file.
-/

namespace EulerArgand

/-- A JavaScript number as seen by the engine: a finite rational, the
negative zero, NaN, or one of the two infinities.  Arithmetic on finite
values is exact. -/
inductive JsVal where
  | fin (q : ℚ)
  | negZero
  | nan
  | inf
  | negInf
deriving DecidableEq

/-- Model of JavaScript's Number.isFinite: true exactly on finite values
(including negative zero). -/
def jsIsFinite : JsVal → Bool
  | .fin _ => true
  | .negZero => true
  | _ => false

/-- The rational value of a finite JsVal (negative zero is numerically 0);
only meaningful when jsIsFinite holds, 0 otherwise. -/
def jsToQ : JsVal → ℚ
  | .fin q => q
  | _ => 0

/-- Model of JavaScript's Math.trunc: round toward zero. -/
def truncQ (q : ℚ) : ℤ :=
  if 0 ≤ q then ⌊q⌋ else ⌈q⌉

/-- Magnitude resolver, src lines 26–30:
clampedMantissa = Number.isFinite(mantissa) ? mantissa : 0;
clampedExp = Number.isFinite(exp) ? Math.max(-300, Math.min(300, Math.trunc(exp))) : 0;
r = clampedMantissa * Math.pow(10, clampedExp). -/
def resolveMagnitude (mantissa e : JsVal) : ℚ :=
  let clampedMantissa : ℚ := if jsIsFinite mantissa then jsToQ mantissa else 0
  let clampedExp : ℤ := if jsIsFinite e then max (-300) (min 300 (truncQ (jsToQ e))) else 0
  clampedMantissa * (10 : ℚ) ^ clampedExp

/-- Coordinate mapper, src line 56:
toPx = (x, y) => ({ x: center.x + x * unit, y: center.y - y * unit })
with center = (width / 2, height / 2) (src line 23) and unit = zoom. -/
def toPx (width height unit x y : ℚ) : ℚ × ℚ :=
  (width / 2 + x * unit, height / 2 - y * unit)

/-- Grid stepper, src lines 60–70:
raw = spanUnits / targetLines;
pow10 = Math.pow(10, Math.floor(Math.log10(Math.max(1e-30, raw))));
norm = raw / pow10;
nice = norm < 1.5 ? 1 : norm < 3.5 ? 2 : norm < 7.5 ? 5 : 10;
return nice * pow10.
In exact arithmetic, Math.floor(Math.log10 x) for positive x is Int.log 10 x. -/
def niceStep (spanUnits targetLines : ℚ) : ℚ :=
  let raw := spanUnits / targetLines
  let pow10 : ℚ := (10 : ℚ) ^ Int.log 10 (max (1e-30) raw)
  let norm := raw / pow10
  let nice : ℚ := if norm < 1.5 then 1 else if norm < 3.5 then 2 else if norm < 7.5 then 5 else 10
  nice * pow10

/-- Model of +(v.toFixed(12)), src line 83: round v to 12 decimal places.
Number.prototype.toFixed renders the absolute value with ties going to the
larger numerator and prepends the sign, so ties round away from zero. -/
def round12 (q : ℚ) : ℚ :=
  if q < 0 then -(((round (-q * 10 ^ 12) : ℤ) : ℚ) / 10 ^ 12)
  else ((round (q * 10 ^ 12) : ℤ) : ℚ) / 10 ^ 12

/-- The value pushed at iteration i of the tick loop, src line 83:
v = start + i * step with start = -Math.ceil(half / step) * step,
rounded to 12 decimals before being pushed. -/
def tickVal (step half : ℚ) (i : ℕ) : ℚ :=
  round12 (-((⌈half / step⌉ : ℤ) : ℚ) * step + (i : ℚ) * step)

/-- Number of loop iterations beyond the first, src line 83: the loop runs
while start + i * step ≤ end + 1e-12 with end = Math.ceil(half / step) * step,
i.e. while i ≤ 2 * ceil(half / step) + (1e-12) / step (for step > 0). -/
def tickCount (step half : ℚ) : ℕ :=
  (2 * ⌈half / step⌉ + ⌊(1e-12 : ℚ) / step⌋).toNat

/-- Tick enumerator, src lines 79–85, in exact arithmetic (for step > 0 the
JavaScript loop pushes exactly these values). -/
def ticks (step half : ℚ) : List ℚ :=
  (List.range (tickCount step half + 1)).map (tickVal step half)

/-- Pad a natural number below 1000 to three digits, for the fractional part
of toFixed(3). -/
def pad3 (d : ℕ) : String :=
  if d < 10 then "00" ++ toString d else if d < 100 then "0" ++ toString d else toString d

/-- Pad a natural number below 100 to two digits, for the fractional part of
toExponential(2). -/
def pad2 (d : ℕ) : String :=
  if d < 10 then "0" ++ toString d else toString d

/-- Model of v.toFixed(3), src line 102, per the ECMAScript algorithm: the
sign is peeled off, the magnitude is scaled by 10^3 and rounded to the
nearest integer with ties to the larger value. -/
def toFixed3 (v : ℚ) : String :=
  let m : ℕ := (round (|v| * 10 ^ 3)).toNat
  (if v < 0 then "-" else "") ++ toString (m / 1000) ++ "." ++ pad3 (m % 1000)

/-- Model of v.toExponential(2), src line 101, per the ECMAScript algorithm:
pick e with 10^e ≤ |v| < 10^(e+1), round |v| / 10^e to two fractional
digits (ties away from zero), and carry into the exponent when the rounding
reaches 10. -/
def toExponential2 (v : ℚ) : String :=
  let x := |v|
  let e0 : ℤ := Int.log 10 x
  let n0 : ℤ := round (x / (10 : ℚ) ^ e0 * 100)
  let n : ℤ := if n0 = 1000 then 100 else n0
  let e : ℤ := if n0 = 1000 then e0 + 1 else e0
  (if v < 0 then "-" else "") ++ toString (n.toNat / 100) ++ "." ++ pad2 (n.toNat % 100) ++
    "e" ++ (if e < 0 then "-" else "+") ++ toString e.natAbs

/-- Model of s.replace(/\.0+$/, ""), src line 102, on its single possible
match: when the string ends in a dot followed only by zeros, drop the dot
and those zeros. -/
def replaceDotZeros (s : List Char) : List Char :=
  let r := s.reverse
  let z := r.takeWhile (fun c => c = '0')
  let rest := r.drop z.length
  if z ≠ [] ∧ rest.head? = some '.' then (rest.drop 1).reverse else s

/-- Model of s.replace(/(\.\d*?)0+$/, "$1"), src line 102: when the string
ends in a nonempty run of zeros preceded by a dot and digits, drop that
trailing run of zeros. -/
def replaceTrailZeros (s : List Char) : List Char :=
  let r := s.reverse
  let z := r.takeWhile (fun c => c = '0')
  let rest := r.drop z.length
  if z ≠ [] ∧ (rest.dropWhile (fun c => c.isDigit)).head? = some '.' then rest.reverse else s

/-- The composition of the two regex replacements applied to the toFixed(3)
output, src line 102. -/
def stripZeros (s : String) : String :=
  String.mk (replaceTrailZeros (replaceDotZeros s.data))

/-- Numeric formatter on a finite value, src lines 97–103 (after the
Number.isFinite test): a = Math.abs(v); a === 0, then the scientific band,
then fixed-point with stripped zeros. -/
def fmtQ (v : ℚ) : String :=
  let a := |v|
  if a = 0 then "0"
  else if 1e6 ≤ a ∨ a < 1e-3 then toExponential2 v
  else stripZeros (toFixed3 v)

/-- Numeric formatter fmt, src lines 97–103.  Math.abs(-0) is 0, so the
negative zero takes the a === 0 branch. -/
def fmt : JsVal → String
  | .nan => "∞"
  | .inf => "∞"
  | .negInf => "∞"
  | .negZero => fmtQ 0
  | .fin q => fmtQ q

/-- Magnitude-circle gate, src lines 106–107:
radiusPx = unit * Math.abs(r);
showRCircle = Number.isFinite(radiusPx) && radiusPx < Math.max(width, height) * 3.
radiusPx is passed in as a possibly non-finite JsVal since unit * |r| can
overflow a double; a non-finite radiusPx fails the gate. -/
def showRCircle (radiusPx : JsVal) (width height : ℚ) : Bool :=
  jsIsFinite radiusPx && decide (jsToQ radiusPx < max width height * 3)

/-- Rendering condition of the dashed magnitude circle, src line 154:
showRCircle && Math.abs(r - 1) > 1e-12. -/
def renderRCircle (radiusPx : JsVal) (r width height : ℚ) : Bool :=
  showRCircle radiusPx width height && decide ((1e-12 : ℚ) < |r - 1|)

/-- Arc radius in pixels, src line 90: arcRadius = unit * Math.min(1, r).
Note the source takes min with r itself, not with Math.abs(r). -/
noncomputable def arcRadius (unit r : ℝ) : ℝ :=
  unit * min 1 r

/-- Real-valued coordinate mapper for the arc geometry, same formula as
toPx (src line 56). -/
noncomputable def toPxR (width height unit x y : ℝ) : ℝ × ℝ :=
  (width / 2 + x * unit, height / 2 - y * unit)

/-- Arc endpoint, src line 91:
arcEnd = toPx(Math.cos(theta) * Math.min(1, r), Math.sin(theta) * Math.min(1, r)). -/
noncomputable def arcEnd (width height unit theta r : ℝ) : ℝ × ℝ :=
  toPxR width height unit (Real.cos theta * min 1 r) (Real.sin theta * min 1 r)

/-- Large-arc flag, src line 92: Math.abs(theta) > Math.PI ? 1 : 0. -/
noncomputable def largeArc (theta : ℝ) : ℤ :=
  if |theta| > Real.pi then 1 else 0

/-- Sweep flag, src line 93: theta >= 0 ? 0 : 1. -/
noncomputable def sweep (theta : ℝ) : ℤ :=
  if theta ≥ 0 then 0 else 1

/-! ### Helper lemmas -/

lemma ten_cast_eq : ((10 : ℕ) : ℚ) = (10 : ℚ) := by norm_num

/-- Int.log 10 is characterised by the sandwich 10 ^ e ≤ r < 10 ^ (e + 1). -/
lemma intLog_uniq {r : ℚ} {e : ℤ} (hr : 0 < r) (h1 : (10 : ℚ) ^ e ≤ r)
    (h2 : r < (10 : ℚ) ^ (e + 1)) : Int.log 10 r = e := by
  have hb : 1 < (10 : ℕ) := by norm_num
  refine le_antisymm ?_ ((Int.zpow_le_iff_le_log hb hr).mp (by rw [ten_cast_eq]; exact h1))
  have hlt := (Int.lt_zpow_iff_log_lt hb hr).mp (by rw [ten_cast_eq]; exact h2)
  omega

/-- Int.log 10 shifts by k under multiplication by 10 ^ k. -/
lemma intLog_mul_zpow {r : ℚ} (hr : 0 < r) (k : ℤ) :
    Int.log 10 (r * (10 : ℚ) ^ k) = Int.log 10 r + k := by
  have hb : 1 < (10 : ℕ) := by norm_num
  have h1 : (10 : ℚ) ^ Int.log 10 r ≤ r := by
    rw [← ten_cast_eq]; exact Int.zpow_log_le_self hb hr
  have h2 : r < (10 : ℚ) ^ (Int.log 10 r + 1) := by
    rw [← ten_cast_eq]; exact Int.lt_zpow_succ_log_self hb r
  have hkpos : (0 : ℚ) < (10 : ℚ) ^ k := zpow_pos (by norm_num) k
  apply intLog_uniq (by positivity)
  · rw [zpow_add₀ (by norm_num : (10 : ℚ) ≠ 0)]
    exact mul_le_mul_of_nonneg_right h1 hkpos.le
  · rw [show Int.log 10 r + k + 1 = Int.log 10 r + 1 + k by ring,
      zpow_add₀ (by norm_num : (10 : ℚ) ≠ 0)]
    exact mul_lt_mul_of_pos_right h2 hkpos

/-- The step produced by niceStep is strictly positive for every input. -/
lemma niceStep_pos (spanUnits targetLines : ℚ) : 0 < niceStep spanUnits targetLines := by
  have hpow : (0 : ℚ) < (10 : ℚ) ^ Int.log 10 (max (1e-30) (spanUnits / targetLines)) :=
    zpow_pos (by norm_num) _
  simp only [niceStep]
  split_ifs <;> positivity

lemma round12_zero : round12 0 = 0 := by
  simp [round12]

lemma round12_neg (x : ℚ) : round12 (-x) = -round12 x := by
  rcases lt_trichotomy x 0 with h | h | h
  · have hx : ¬(-x < 0) := by linarith
    simp only [round12, if_pos h, if_neg hx, neg_neg]
  · subst h
    simp [round12]
  · have hx : ¬(x < 0) := by linarith
    simp only [round12, if_pos (by linarith : -x < 0), if_neg hx, neg_neg]

lemma round12_nonneg {x : ℚ} (hx : 0 ≤ x) : 0 ≤ round12 x := by
  simp only [round12, if_neg (not_lt.mpr hx)]
  have h : (0 : ℤ) ≤ round (x * 10 ^ 12) := by
    rw [round_eq]
    exact Int.floor_nonneg.mpr (by positivity)
  positivity

lemma round12_ge_sub {x : ℚ} (hx : 0 ≤ x) : x - 5e-13 ≤ round12 x := by
  simp only [round12, if_neg (not_lt.mpr hx)]
  have h : x * 10 ^ 12 - 1 / 2 < ((round (x * 10 ^ 12) : ℤ) : ℚ) := by
    rw [round_eq]
    have := Int.sub_one_lt_floor (x * 10 ^ 12 + 1 / 2)
    linarith
  rw [le_div_iff₀ (by positivity : (0 : ℚ) < 10 ^ 12)]
  have hp : (10 : ℚ) ^ 12 = 1000000000000 := by norm_num
  rw [hp] at h ⊢
  linarith

/-- For step above the loop epsilon the tick loop runs exactly 2 n + 1 times,
n = ceil(half / step). -/
lemma tickCount_of_eps_lt {step half : ℚ} (hs : (1e-12 : ℚ) < step) :
    tickCount step half = (2 * ⌈half / step⌉).toNat := by
  have hs0 : (0 : ℚ) < step := lt_trans (by norm_num) hs
  have hfl : ⌊(1e-12 : ℚ) / step⌋ = 0 := by
    rw [Int.floor_eq_zero_iff]
    constructor
    · positivity
    · rw [div_lt_one hs0]; exact hs
  simp [tickCount, hfl]

/-- Concrete evaluation: niceStep 76 10 = 10 (raw 7.6, pow10 1, norm 7.6 ≥ 7.5). -/
lemma niceStep_76 : niceStep 76 10 = 10 := by
  have hmax : max (1e-30 : ℚ) (76 / 10) = 38 / 5 := by norm_num
  have hlog : Int.log 10 ((38 : ℚ) / 5) = 0 :=
    intLog_uniq (by norm_num) (by norm_num) (by norm_num)
  simp only [niceStep, hmax, hlog]
  rw [if_neg (by norm_num), if_neg (by norm_num), if_neg (by norm_num)]
  norm_num

/-- Concrete evaluation: niceStep 1e-25 10 = 1e-26 (the 1e-30 floor is inactive). -/
lemma niceStep_1e25 : niceStep (1e-25) 10 = 1e-26 := by
  have hmax : max (1e-30 : ℚ) (1e-25 / 10) = 1e-26 := by norm_num
  have hlog : Int.log 10 ((1e-26 : ℚ)) = -26 :=
    intLog_uniq (by norm_num) (by norm_num) (by norm_num)
  simp only [niceStep, hmax, hlog]
  rw [if_pos (by norm_num)]
  norm_num

/-- Concrete evaluation: niceStep 1e-35 10 = 1e-30 (the 1e-30 floor is active). -/
lemma niceStep_1e35 : niceStep (1e-35) 10 = 1e-30 := by
  have hmax : max (1e-30 : ℚ) (1e-35 / 10) = 1e-30 := by norm_num
  have hlog : Int.log 10 ((1e-30 : ℚ)) = -30 :=
    intLog_uniq (by norm_num) (by norm_num) (by norm_num)
  simp only [niceStep, hmax, hlog]
  rw [if_pos (by norm_num)]
  norm_num

/-- On the scientific band the formatter delegates to toExponential2. -/
lemma fmt_sci_branch (q : ℚ) (hq : q ≠ 0) (hband : 1e6 ≤ |q| ∨ |q| < 1e-3) :
    fmt (.fin q) = toExponential2 q := by
  simp only [fmt, fmtQ]
  rw [if_neg (by simpa [abs_eq_zero] using hq), if_pos hband]

/-- On the middle band the formatter renders fixed-point and strips zeros. -/
lemma fmt_fixed_branch (q : ℚ) (h1 : 1e-3 ≤ |q|) (h2 : |q| < 1e6) :
    fmt (.fin q) = stripZeros (toFixed3 q) := by
  have hq : ¬|q| = 0 := by intro h; rw [h] at h1; norm_num at h1
  simp only [fmt, fmtQ]
  rw [if_neg hq, if_neg (by push_neg; exact ⟨by linarith, by linarith⟩)]

/-- Concrete evaluation: fmt 0.25 = "0.25" (trailing zero of "0.250" stripped). -/
lemma fmt_quarter : fmt (.fin (1 / 4)) = "0.25" := by
  rw [fmt_fixed_branch (1 / 4) (by rw [abs_of_pos (by norm_num)]; norm_num)
    (by rw [abs_of_pos (by norm_num)]; norm_num)]
  have hr : round (|(1 / 4 : ℚ)| * 10 ^ 3) = 250 := by
    rw [abs_of_pos (by norm_num : (0 : ℚ) < 1 / 4)]
    norm_num [round_eq]
  simp only [toFixed3, hr]
  rw [if_neg (by norm_num : ¬(1 / 4 : ℚ) < 0)]
  rfl

/-- Concrete evaluation: fmt 1500000 = "1.50e+6" (scientific band). -/
lemma fmt_1500000 : fmt (.fin 1500000) = "1.50e+6" := by
  have habs : |(1500000 : ℚ)| = 1500000 := abs_of_pos (by norm_num)
  rw [fmt_sci_branch 1500000 (by norm_num) (Or.inl (by rw [habs]; norm_num))]
  have hlog : Int.log 10 |(1500000 : ℚ)| = 6 := by
    rw [habs]
    exact intLog_uniq (by norm_num) (by norm_num) (by norm_num)
  have hround : round (|(1500000 : ℚ)| / (10 : ℚ) ^ (6 : ℤ) * 100) = 150 := by
    rw [habs]
    norm_num [round_eq]
  simp only [toExponential2, hlog, hround]
  rw [if_neg (by norm_num : ¬(150 : ℤ) = 1000), if_neg (by norm_num : ¬(1500000 : ℚ) < 0),
    if_neg (by norm_num : ¬(150 : ℤ) = 1000), if_neg (by norm_num : ¬(6 : ℤ) < 0)]
  rfl

/-- Zero is always among the ticks (the loop always reaches v = 0). -/
lemma zero_mem_ticks {step half : ℚ} (hs : 0 < step) (hh : 0 ≤ half) :
    0 ∈ ticks step half := by
  have hn : 0 ≤ ⌈half / step⌉ := Int.ceil_nonneg (div_nonneg hh hs.le)
  have hfl : 0 ≤ ⌊(1e-12 : ℚ) / step⌋ := Int.floor_nonneg.mpr (by positivity)
  refine List.mem_map.mpr ⟨(⌈half / step⌉).toNat, List.mem_range.mpr ?_, ?_⟩
  · simp only [tickCount]
    omega
  · have hcast : (((⌈half / step⌉).toNat : ℕ) : ℚ) = ((⌈half / step⌉ : ℤ) : ℚ) := by
      exact_mod_cast congrArg (fun z : ℤ => (z : ℚ)) (Int.toNat_of_nonneg hn)
    simp only [tickVal, hcast]
    rw [show -((⌈half / step⌉ : ℤ) : ℚ) * step + ((⌈half / step⌉ : ℤ) : ℚ) * step = 0 by ring]
    exact round12_zero

/-! ### Claim theorems -/

/-- Claim C1: resolveMagnitude(mantissa, exponent) returns m' × 10^e' with
m' = mantissa if finite else 0 and e' = clamp(trunc(exponent), -300, 300) if
exponent is finite else 0; in particular resolveMagnitude(NaN, e) = 0 and
resolveMagnitude(m, NaN) = m × 10^0 = m, and the function is total (no
error for any input). -/
theorem resolveMagnitude_contract :
    (∀ (q : ℚ) (e : JsVal), jsIsFinite e = true →
      resolveMagnitude (.fin q) e = q * (10 : ℚ) ^ max (-300) (min 300 (truncQ (jsToQ e)))) ∧
    (∀ e : JsVal, resolveMagnitude .nan e = 0 ∧ resolveMagnitude .inf e = 0 ∧
      resolveMagnitude .negInf e = 0) ∧
    (∀ q : ℚ, resolveMagnitude (.fin q) .nan = q) ∧
    (∀ q x : ℚ, -300 ≤ x → x ≤ 300 →
      resolveMagnitude (.fin q) (.fin x) = q * (10 : ℚ) ^ truncQ x) := by
  refine ⟨?_, ?_, ?_, ?_⟩
  · intro q e he
    simp only [resolveMagnitude]
    rw [if_pos he, if_pos (show jsIsFinite (JsVal.fin q) = true from rfl)]
    rfl
  · intro e
    refine ⟨?_, ?_, ?_⟩ <;> simp [resolveMagnitude, jsIsFinite]
  · intro q
    simp [resolveMagnitude, jsIsFinite, jsToQ]
  · intro q x hlo hhi
    have ht1 : truncQ x ≤ 300 := by
      simp only [truncQ]
      split_ifs
      · calc ⌊x⌋ ≤ ⌊(300 : ℚ)⌋ := Int.floor_le_floor hhi
          _ = 300 := by norm_num
      · calc ⌈x⌉ ≤ ⌈(300 : ℚ)⌉ := Int.ceil_le_ceil hhi
          _ = 300 := by norm_num
    have hfl : ⌊(-300 : ℚ)⌋ = -300 := by
      rw [show (-300 : ℚ) = ((-300 : ℤ) : ℚ) by norm_num, Int.floor_intCast]
    have hcl : ⌈(-300 : ℚ)⌉ = -300 := by
      rw [show (-300 : ℚ) = ((-300 : ℤ) : ℚ) by norm_num, Int.ceil_intCast]
    have ht2 : -300 ≤ truncQ x := by
      simp only [truncQ]
      split_ifs
      · calc (-300 : ℤ) = ⌊(-300 : ℚ)⌋ := hfl.symm
          _ ≤ ⌊x⌋ := Int.floor_le_floor hlo
      · calc (-300 : ℤ) = ⌈(-300 : ℚ)⌉ := hcl.symm
          _ ≤ ⌈x⌉ := Int.ceil_le_ceil hlo
    have hclamp : max (-300) (min 300 (truncQ x)) = truncQ x := by omega
    simp [resolveMagnitude, jsIsFinite, jsToQ, hclamp]

/-- Claim C1 witness: a finite mantissa with an out-of-range exponent is
clamped to 10^300. -/
theorem resolveMagnitude_contract_witness :
    resolveMagnitude (.fin 1) (.fin 400) = (10 : ℚ) ^ (300 : ℤ) := by
  rw [resolveMagnitude_contract.1 1 (.fin 400) rfl]
  have ht : truncQ (jsToQ (.fin 400)) = 400 := by
    simp only [truncQ, jsToQ]
    rw [if_pos (by norm_num)]
    norm_num
  rw [ht, show max (-300) (min 300 (400 : ℤ)) = 300 by omega, one_mul]

/-- Claim C2 counterexample: the claim states the arc radius is
zoom × min(1, |r|); the source computes unit * Math.min(1, r) without the
absolute value, so at zoom = 100, r = -2 the computed radius is -200, not
100. -/
theorem arcRadius_abs_counterexample :
    ¬arcRadius 100 (-2) = 100 * min 1 |(-2 : ℝ)| := by
  have h1 : min (1 : ℝ) (-2) = -2 := min_eq_right (by norm_num)
  have h2 : |(-2 : ℝ)| = 2 := by norm_num
  have h3 : min (1 : ℝ) 2 = 1 := min_eq_left (by norm_num)
  simp only [arcRadius, h1, h2, h3]
  norm_num

/-- Claim C2 (amended): the arc descriptor uses radius min(1, r) — which
agrees with min(1, |r|) whenever r ≥ 0 — both for the pixel radius
(zoom × min(1, r)) and for the endpoint (cos θ × min(1, r),
sin θ × min(1, r)) mapped through toPx; largeArc = 1 iff |θ| > π and
sweep = 0 iff θ ≥ 0. -/
theorem arc_descriptor_spec :
    ∀ (width height unit theta r : ℝ),
      arcRadius unit r = unit * min 1 r ∧
      (0 ≤ r → arcRadius unit r = unit * min 1 |r|) ∧
      arcEnd width height unit theta r =
        (width / 2 + Real.cos theta * min 1 r * unit,
          height / 2 - Real.sin theta * min 1 r * unit) ∧
      (largeArc theta = 1 ↔ Real.pi < |theta|) ∧
      (largeArc theta = 0 ↔ |theta| ≤ Real.pi) ∧
      (sweep theta = 0 ↔ 0 ≤ theta) ∧
      (sweep theta = 1 ↔ theta < 0) := by
  intro width height unit theta r
  refine ⟨rfl, ?_, rfl, ?_, ?_, ?_, ?_⟩
  · intro hr
    rw [abs_of_nonneg hr]
    rfl
  · by_cases h : Real.pi < |theta| <;> simp [largeArc, h]
  · by_cases h : Real.pi < |theta| <;> simp [largeArc, h, le_of_not_lt, not_le.mpr]
  · by_cases h : (0 : ℝ) ≤ theta <;> simp [sweep, h]
  · by_cases h : (0 : ℝ) ≤ theta <;> simp [sweep, h, lt_of_not_le, not_lt.mpr]

/-- Claim C2 witness: for the nonnegative magnitude r = 2 the radius does
equal zoom × min(1, |r|). -/
theorem arc_descriptor_spec_witness :
    arcRadius 100 2 = 100 * min 1 |(2 : ℝ)| :=
  (arc_descriptor_spec 760 560 100 0 2).2.1 (by norm_num)

/-- Claim C6: toScreen maps world coordinates to px = centerX + worldX × zoom
and py = centerY − worldY × zoom with center = (width/2, height/2); the
function is total (here over exact rationals, where non-finite inputs and
overflow do not arise). -/
theorem toPx_contract :
    ∀ width height unit x y : ℚ,
      toPx width height unit x y = (width / 2 + x * unit, height / 2 - y * unit) ∧
      toPx 760 560 100 1 1 = (480, 180) := by
  intro width height unit x y
  refine ⟨rfl, ?_⟩
  simp only [toPx, Prod.mk.injEq]
  norm_num

/-- Claim C8: the magnitude circle is rendered only if radiusPx is finite
and radiusPx < 3 × max(canvasWidth, canvasHeight); when the gate fails the
circle is omitted. -/
theorem showRCircle_gate :
    (∀ (radiusPx : JsVal) (r width height : ℚ),
      renderRCircle radiusPx r width height = true →
      jsIsFinite radiusPx = true ∧ jsToQ radiusPx < max width height * 3) ∧
    (∀ (radiusPx : JsVal) (r width height : ℚ),
      showRCircle radiusPx width height = false →
      renderRCircle radiusPx r width height = false) ∧
    (∀ (unit r width height : ℚ),
      renderRCircle (.fin (unit * |r|)) r width height = true →
      unit * |r| < 3 * max width height) := by
  refine ⟨?_, ?_, ?_⟩
  · intro radiusPx r width height h
    simp only [renderRCircle, showRCircle, Bool.and_eq_true, decide_eq_true_eq] at h
    exact ⟨h.1.1, h.1.2⟩
  · intro radiusPx r width height h
    simp only [renderRCircle, h, Bool.false_and]
  · intro unit r width height h
    simp only [renderRCircle, showRCircle, Bool.and_eq_true, decide_eq_true_eq,
      jsToQ] at h
    linarith [h.1.2]

/-- Claim C8 witness: radiusPx = 10 on a 760 × 560 canvas passes the gate. -/
theorem showRCircle_gate_witness :
    jsIsFinite (JsVal.fin 10) = true ∧ jsToQ (JsVal.fin 10) < max 760 560 * 3 :=
  showRCircle_gate.1 (.fin 10) 5 760 560 (by
    simp only [renderRCircle, showRCircle, jsIsFinite, jsToQ, Bool.true_and,
      Bool.and_eq_true, decide_eq_true_eq]
    constructor <;> norm_num [abs_of_pos])

/-- Claim C10: the formatter renders negative zero as "0", because the zero
test compares Math.abs of the input (which is 0 for -0) against 0. -/
theorem fmt_negZero : fmt .negZero = "0" := by
  simp [fmt, fmtQ]

/-- Claim C3: for positive spanUnits and targetLines = 10, niceStep returns
multiplier × pow10 where pow10 = 10^floor(log10(max(raw, 1e-30))) — here
expressed by the sandwich 10^e ≤ max(raw, 1e-30) < 10^(e+1) — norm =
raw / pow10, and the multiplier is 1 / 2 / 5 / 10 by the thresholds
1.5 / 3.5 / 7.5; in particular niceStep(76, 10) = 10. -/
theorem niceStep_formula :
    (∀ span : ℚ, 0 < span →
      ∃ e : ℤ, (10 : ℚ) ^ e ≤ max (1e-30) (span / 10) ∧
        max (1e-30) (span / 10) < (10 : ℚ) ^ (e + 1) ∧
        niceStep span 10 =
          (if span / 10 / (10 : ℚ) ^ e < 1.5 then 1
            else if span / 10 / (10 : ℚ) ^ e < 3.5 then 2
            else if span / 10 / (10 : ℚ) ^ e < 7.5 then 5 else 10) * (10 : ℚ) ^ e) ∧
    niceStep 76 10 = 10 := by
  constructor
  · intro span _hspan
    have hpos : (0 : ℚ) < max (1e-30) (span / 10) :=
      lt_of_lt_of_le (by norm_num) (le_max_left _ _)
    refine ⟨Int.log 10 (max (1e-30) (span / 10)), ?_, ?_, rfl⟩
    · rw [← ten_cast_eq]
      exact Int.zpow_log_le_self (by norm_num) hpos
    · rw [← ten_cast_eq]
      exact Int.lt_zpow_succ_log_self (by norm_num) _
  · exact niceStep_76

/-- Claim C3 witness: the formula instantiated at spanUnits = 76. -/
theorem niceStep_formula_witness :
    niceStep 76 10 = 10 ∧
      ∃ e : ℤ, (10 : ℚ) ^ e ≤ max (1e-30) ((76 : ℚ) / 10) ∧
        max (1e-30) ((76 : ℚ) / 10) < (10 : ℚ) ^ (e + 1) ∧
        niceStep 76 10 =
          (if (76 : ℚ) / 10 / (10 : ℚ) ^ e < 1.5 then 1
            else if (76 : ℚ) / 10 / (10 : ℚ) ^ e < 3.5 then 2
            else if (76 : ℚ) / 10 / (10 : ℚ) ^ e < 7.5 then 5 else 10) * (10 : ℚ) ^ e :=
  ⟨niceStep_formula.2, niceStep_formula.1 76 (by norm_num)⟩

/-- Claim C5 counterexample: scale invariance fails when the 1e-30 floor
engages: with span = 1e-35 (no double underflow involved), k = 10 and
targetLines = 10, niceStep(1e-25, 10) = 1e-26 while
niceStep(1e-35, 10) × 10^10 = 1e-30 × 10^10 = 1e-20. -/
theorem niceStep_scale_counterexample :
    ¬niceStep ((1e-35 : ℚ) * (10 : ℚ) ^ (10 : ℤ)) 10 =
      niceStep (1e-35) 10 * (10 : ℚ) ^ (10 : ℤ) := by
  have h1 : (1e-35 : ℚ) * (10 : ℚ) ^ (10 : ℤ) = 1e-25 := by norm_num
  rw [h1, niceStep_1e25, niceStep_1e35]
  norm_num

/-- Claim C5 (amended): niceStep is scale-invariant provided both raw spans
stay on or above the 1e-30 logarithm floor: for targetLines n > 0 with
span / n ≥ 1e-30 and (span × 10^k) / n ≥ 1e-30,
niceStep(span × 10^k, n) = niceStep(span, n) × 10^k exactly (no floating
tolerance is needed in exact arithmetic). -/
theorem niceStep_scale_invariant :
    ∀ (span n : ℚ) (k : ℤ), 0 < n → 1e-30 ≤ span / n →
      1e-30 ≤ span * (10 : ℚ) ^ k / n →
      niceStep (span * (10 : ℚ) ^ k) n = niceStep span n * (10 : ℚ) ^ k := by
  intro span n k _hn h1 h2
  have hraw : 0 < span / n := lt_of_lt_of_le (by norm_num) h1
  have hrw : span * (10 : ℚ) ^ k / n = span / n * (10 : ℚ) ^ k := by ring
  have hmax1 : max (1e-30 : ℚ) (span / n) = span / n := max_eq_right h1
  have hmax2 : max (1e-30 : ℚ) (span / n * (10 : ℚ) ^ k) = span / n * (10 : ℚ) ^ k := by
    rw [hrw] at h2
    exact max_eq_right h2
  have hkz : (10 : ℚ) ^ k ≠ 0 := zpow_ne_zero k (by norm_num)
  have hpz : (10 : ℚ) ^ Int.log 10 (span / n) ≠ 0 := zpow_ne_zero _ (by norm_num)
  simp only [niceStep, hmax1, hmax2, hrw]
  rw [intLog_mul_zpow hraw k, zpow_add₀ (by norm_num : (10 : ℚ) ≠ 0)]
  rw [mul_div_mul_right _ _ hkz]
  ring

/-- Claim C5 witness: invariance at span = 76, n = 10, k = 1, both raw
spans being far above the floor. -/
theorem niceStep_scale_invariant_witness :
    niceStep (76 * (10 : ℚ) ^ (1 : ℤ)) 10 = niceStep 76 10 * (10 : ℚ) ^ (1 : ℤ) :=
  niceStep_scale_invariant 76 10 1 (by norm_num) (by norm_num) (by norm_num)

/-- Claim C9: for every finite spanUnits (zero and negatives included) the
argument of the logarithm inside niceStep is strictly positive thanks to
the max(raw, 1e-30) floor, the returned step is strictly positive, and the
tick enumeration over that step is a finite list (of tickCount + 1
elements) containing 0. -/
theorem niceStep_safety :
    ∀ span : ℚ,
      0 < max (1e-30 : ℚ) (span / 10) ∧
      0 < niceStep span 10 ∧
      ∀ half : ℚ, 0 ≤ half →
        (ticks (niceStep span 10) half).length = tickCount (niceStep span 10) half + 1 ∧
        0 ∈ ticks (niceStep span 10) half := by
  intro span
  refine ⟨lt_of_lt_of_le (by norm_num) (le_max_left _ _), niceStep_pos span 10, ?_⟩
  intro half hh
  constructor
  · simp [ticks]
  · exact zero_mem_ticks (niceStep_pos span 10) hh

/-- Claim C9 witness: instantiated at span = 76, half = 2. -/
theorem niceStep_safety_witness :
    0 < niceStep 76 10 ∧ 0 ∈ ticks (niceStep 76 10) 2 :=
  ⟨(niceStep_safety 76).2.1, ((niceStep_safety 76).2.2 2 (by norm_num)).2⟩

/-- Concrete evaluation: at step = 1e-12 (equal to the loop epsilon) the
loop runs one extra iteration, producing [0, 1e-12]. -/
lemma ticks_1e12_0 : ticks (1e-12) 0 = [0, 1e-12] := by
  have hceil : ⌈(0 : ℚ) / (1e-12 : ℚ)⌉ = 0 := by norm_num
  have hfloor : ⌊(1e-12 : ℚ) / (1e-12 : ℚ)⌋ = 1 := by norm_num
  have hcount : tickCount (1e-12) 0 = 1 := by
    simp [tickCount, hceil, hfloor]
  have hv0 : tickVal (1e-12) 0 0 = 0 := by
    simp only [tickVal, hceil]
    rw [show -(((0 : ℤ) : ℚ)) * (1e-12 : ℚ) + ((0 : ℕ) : ℚ) * (1e-12 : ℚ) = 0 by push_cast; ring]
    exact round12_zero
  have hv1 : tickVal (1e-12) 0 1 = 1e-12 := by
    simp only [tickVal, hceil]
    rw [show -(((0 : ℤ) : ℚ)) * (1e-12 : ℚ) + ((1 : ℕ) : ℚ) * (1e-12 : ℚ) = 1e-12 by
      push_cast; ring]
    simp only [round12]
    rw [if_neg (by norm_num)]
    norm_num [round_eq]
  simp [ticks, hcount, List.range_succ, hv0, hv1]

/-- Claim C4 counterexample: at step = 1e-12, half = 0 the emitted sequence
is [0, 1e-12], which contains 1e-12 but not -1e-12, so it is not symmetric
about zero. -/
theorem ticks_symmetry_counterexample :
    (1e-12 : ℚ) ∈ ticks (1e-12) 0 ∧ (-(1e-12) : ℚ) ∉ ticks (1e-12) 0 := by
  rw [ticks_1e12_0]
  refine ⟨by simp, ?_⟩
  intro h
  simp only [List.mem_cons, List.not_mem_nil, or_false] at h
  rcases h with h | h <;> norm_num at h

/-- Claim C4 (amended): for every step > 0 and half ≥ 0 the sequence
contains 0; when moreover step > 1e-12 (the loop epsilon) the sequence is
symmetric about zero, its first and last elements are the 12-decimal
roundings of ∓ceil(half/step)·step, those pre-rounding extremes have
absolute value ≥ half, and the emitted extremes are therefore
≥ half − 5·10⁻¹³ in absolute value (rounding may shave up to 5·10⁻¹³). -/
theorem ticks_spec :
    ∀ step half : ℚ, 0 < step → 0 ≤ half →
      0 ∈ ticks step half ∧
      ((1e-12 : ℚ) < step →
        (∀ x ∈ ticks step half, -x ∈ ticks step half) ∧
        (ticks step half).head? = some (round12 (-((⌈half / step⌉ : ℤ) : ℚ) * step)) ∧
        (ticks step half).getLast? = some (round12 (((⌈half / step⌉ : ℤ) : ℚ) * step)) ∧
        half ≤ ((⌈half / step⌉ : ℤ) : ℚ) * step ∧
        half - 5e-13 ≤ round12 (((⌈half / step⌉ : ℤ) : ℚ) * step) ∧
        round12 (-((⌈half / step⌉ : ℤ) : ℚ) * step) =
          -round12 (((⌈half / step⌉ : ℤ) : ℚ) * step)) := by
  intro step half hs hh
  refine ⟨zero_mem_ticks hs hh, ?_⟩
  intro heps
  set n : ℤ := ⌈half / step⌉ with hn
  have hn0 : 0 ≤ n := Int.ceil_nonneg (div_nonneg hh hs.le)
  have hcount : tickCount step half = (2 * n).toNat := tickCount_of_eps_lt heps
  have hNc : (((2 * n).toNat : ℕ) : ℚ) = 2 * (n : ℚ) := by
    have h := Int.toNat_of_nonneg (show (0 : ℤ) ≤ 2 * n by omega)
    exact_mod_cast congrArg (fun z : ℤ => (z : ℚ)) h
  have hhalf_le : half ≤ (n : ℚ) * step :=
    calc half = half / step * step := (div_mul_cancel₀ half hs.ne').symm
      _ ≤ (n : ℚ) * step := mul_le_mul_of_nonneg_right (Int.le_ceil _) hs.le
  refine ⟨?_, ?_, ?_, hhalf_le, ?_, ?_⟩
  · intro x hx
    rcases List.mem_map.mp hx with ⟨i, hi, rfl⟩
    have hiN : i < (2 * n).toNat + 1 := by
      rw [← hcount]
      exact List.mem_range.mp hi
    have hle : i ≤ (2 * n).toNat := Nat.lt_succ_iff.mp hiN
    refine List.mem_map.mpr ⟨(2 * n).toNat - i, List.mem_range.mpr ?_, ?_⟩
    · rw [hcount]
      omega
    · simp only [tickVal]
      have hcast : (((2 * n).toNat - i : ℕ) : ℚ) = 2 * (n : ℚ) - (i : ℚ) := by
        rw [Nat.cast_sub hle, hNc]
      rw [hcast,
        show -(n : ℚ) * step + (2 * (n : ℚ) - (i : ℚ)) * step =
          -(-(n : ℚ) * step + (i : ℚ) * step) by ring,
        round12_neg]
  · simp only [ticks, List.range_succ_eq_map, List.map_cons, List.head?_cons]
    congr 1
    simp only [tickVal]
    congr 1
    push_cast
    ring
  · simp only [ticks, List.range_succ, List.map_append, List.map_cons, List.map_nil]
    rw [List.getLast?_concat]
    congr 1
    simp only [tickVal, hcount]
    congr 1
    rw [hNc]
    ring
  · have h1 : 0 ≤ (n : ℚ) * step := le_trans hh hhalf_le
    have := round12_ge_sub h1
    linarith
  · rw [show -(n : ℚ) * step = -((n : ℚ) * step) by ring, round12_neg]

/-- Claim C4 witness: step = 1, half = 2 — the sequence contains 0 and is
symmetric. -/
theorem ticks_spec_witness :
    0 ∈ ticks 1 2 ∧ ∀ x ∈ ticks 1 2, -x ∈ ticks 1 2 :=
  ⟨(ticks_spec 1 2 (by norm_num) (by norm_num)).1,
    ((ticks_spec 1 2 (by norm_num) (by norm_num)).2 (by norm_num)).1⟩

/-- Claim C7: the formatter returns "∞" on the three non-finite values, "0"
on zero, toExponential2 on the scientific band (|v| ≥ 1e6 or 0 < |v| <
1e-3), and the fixed-point rendering with trailing zeros stripped
otherwise; in particular fmt 0 = "0", fmt 0.25 = "0.25", and
fmt 1500000 = "1.50e+6". -/
theorem fmt_branches :
    fmt .nan = "∞" ∧ fmt .inf = "∞" ∧ fmt .negInf = "∞" ∧
    fmt (.fin 0) = "0" ∧
    (∀ q : ℚ, q ≠ 0 → (1e6 ≤ |q| ∨ |q| < 1e-3) → fmt (.fin q) = toExponential2 q) ∧
    (∀ q : ℚ, 1e-3 ≤ |q| → |q| < 1e6 → fmt (.fin q) = stripZeros (toFixed3 q)) ∧
    fmt (.fin (1 / 4)) = "0.25" ∧ fmt (.fin 1500000) = "1.50e+6" :=
  ⟨rfl, rfl, rfl, by simp [fmt, fmtQ], fmt_sci_branch, fmt_fixed_branch,
    fmt_quarter, fmt_1500000⟩

/-- Claim C7 witness: the two banded branches instantiated at 2500000 and
1/2. -/
theorem fmt_branches_witness :
    fmt (.fin 2500000) = toExponential2 2500000 ∧
      fmt (.fin (1 / 2)) = stripZeros (toFixed3 (1 / 2)) :=
  ⟨fmt_branches.2.2.2.2.1 2500000 (by norm_num)
      (Or.inl (by rw [abs_of_pos (by norm_num : (0 : ℚ) < 2500000)]; norm_num)),
    fmt_branches.2.2.2.2.2.1 (1 / 2)
      (by rw [abs_of_pos (by norm_num : (0 : ℚ) < 1 / 2)]; norm_num)
      (by rw [abs_of_pos (by norm_num : (0 : ℚ) < 1 / 2)]; norm_num)⟩

end EulerArgand
